import Mathlib

/-!
Verification development for the csv-ai-analyzer core:
a shallow embedding of `src/lib/csv-parser.ts` and of the chart
aggregation pipeline `processChartData` from
`src/app/_components/ChartDisplay.tsx`, together with theorems checking
the natural-language specification against this embedding.

JavaScript numbers are modelled by `JsNum`: an exact rational for finite
values plus the three special values `NaN`, `Infinity`, `-Infinity`
(IEEE-754 rounding of decimal literals is not modelled; the claims under
check do not depend on it).  JavaScript string primitives (`trim`,
`toLowerCase`, `parseFloat`, `Number`) are modelled over ASCII, which is
the fragment the source exercises.
-/

/-- Whitespace as recognised by JavaScript `trim` / `parseFloat` /
regexp `\s` (ASCII fragment). -/
def isJsWhitespace (c : Char) : Bool :=
  c = ' ' || c = '\t' || c = '\n' || c = '\r' || c = '\x0b' || c = '\x0c'

/-- JavaScript `String.prototype.trim` (ASCII whitespace). -/
def jsTrim (s : String) : String :=
  String.mk (((s.toList.dropWhile isJsWhitespace).reverse.dropWhile isJsWhitespace).reverse)

/-- JavaScript `String.prototype.toLowerCase` (ASCII fragment). -/
def jsToLower (s : String) : String :=
  String.mk (s.toList.map Char.toLower)

/-- Rational addition, written out on `mkRat` so that the kernel can
evaluate it (the library's `Rat.add` is irreducible). -/
def qadd (a b : ℚ) : ℚ :=
  mkRat (a.num * b.den + b.num * a.den) (a.den * b.den)

/-- Rational subtraction on `mkRat` (kernel-evaluable). -/
def qsub (a b : ℚ) : ℚ :=
  mkRat (a.num * b.den - b.num * a.den) (a.den * b.den)

/-- Rational multiplication on `mkRat` (kernel-evaluable). -/
def qmul (a b : ℚ) : ℚ :=
  mkRat (a.num * b.num) (a.den * b.den)

/-- Rational division on `mkRat` (kernel-evaluable); division by zero
yields zero, matching `Rat.div`. -/
def qdiv (a b : ℚ) : ℚ :=
  if b.num < 0 then mkRat (-(a.num * (b.den : Int))) (a.den * b.num.natAbs)
  else mkRat (a.num * (b.den : Int)) (a.den * b.num.natAbs)

/-- Floor of a rational (kernel-evaluable). -/
def qfloor (a : ℚ) : Int :=
  a.num.fdiv (a.den : Int)

/-- The rational `10 ^ n` (kernel-evaluable). -/
def pow10 : Nat → ℚ
  | 0 => 1
  | n + 1 => qmul (pow10 n) 10

/-- A JavaScript number: `NaN`, the two infinities, or a finite value
(modelled as an exact rational). -/
inductive JsNum where
  | nan
  | posInf
  | negInf
  | fin (q : ℚ)
deriving DecidableEq

/-- JavaScript `isFinite`. -/
def jsIsFinite : JsNum → Bool
  | .fin _ => true
  | _ => false

/-- JavaScript addition on numbers. -/
def jsAdd : JsNum → JsNum → JsNum
  | .nan, _ => .nan
  | _, .nan => .nan
  | .posInf, .negInf => .nan
  | .negInf, .posInf => .nan
  | .posInf, _ => .posInf
  | _, .posInf => .posInf
  | .negInf, _ => .negInf
  | _, .negInf => .negInf
  | .fin a, .fin b => .fin (qadd a b)

/-- JavaScript subtraction on numbers. -/
def jsSub : JsNum → JsNum → JsNum
  | .nan, _ => .nan
  | _, .nan => .nan
  | .posInf, .posInf => .nan
  | .negInf, .negInf => .nan
  | .posInf, _ => .posInf
  | .negInf, _ => .negInf
  | .fin _, .posInf => .negInf
  | .fin _, .negInf => .posInf
  | .fin a, .fin b => .fin (qsub a b)

/-- JavaScript `Math.min` on two numbers. -/
def jsMin : JsNum → JsNum → JsNum
  | .nan, _ => .nan
  | _, .nan => .nan
  | .negInf, _ => .negInf
  | _, .negInf => .negInf
  | .posInf, b => b
  | a, .posInf => a
  | .fin a, .fin b => .fin (min a b)

/-- JavaScript `Math.max` on two numbers. -/
def jsMax : JsNum → JsNum → JsNum
  | .nan, _ => .nan
  | _, .nan => .nan
  | .posInf, _ => .posInf
  | _, .posInf => .posInf
  | .negInf, b => b
  | a, .negInf => a
  | .fin a, .fin b => .fin (max a b)

/-- Whether a JavaScript number compares strictly greater than zero
(`x > 0`; false for `NaN`). -/
def jsGtZero : JsNum → Bool
  | .nan => false
  | .posInf => true
  | .negInf => false
  | .fin q => 0 < q

/-- Multiplication by the positive literal 100. -/
def jsMul100 : JsNum → JsNum
  | .nan => .nan
  | .posInf => .posInf
  | .negInf => .negInf
  | .fin q => .fin (qmul q 100)

/-- Division by the positive literal 100. -/
def jsDiv100 : JsNum → JsNum
  | .nan => .nan
  | .posInf => .posInf
  | .negInf => .negInf
  | .fin q => .fin (qdiv q 100)

/-- JavaScript `Math.round`: half-up, i.e. floor of `x + 1/2` on finite
values; `NaN` and the infinities are fixed points. -/
def jsRound : JsNum → JsNum
  | .nan => .nan
  | .posInf => .posInf
  | .negInf => .negInf
  | .fin q => .fin ((qfloor (qadd q (mkRat 1 2)) : ℤ) : ℚ)

/-- The source's 2-decimal rounding `Math.round(value * 100) / 100`. -/
def jsRound2 (v : JsNum) : JsNum :=
  jsDiv100 (jsRound (jsMul100 v))

/-- Division of a number by a (positive) count, for the `avg`
aggregation `stats.sum / stats.count`. -/
def jsDivCount (v : JsNum) (n : Nat) : JsNum :=
  match v with
  | .nan => .nan
  | .posInf => .posInf
  | .negInf => .negInf
  | .fin q => .fin (qdiv q (n : ℚ))

/-- Numeric value of a list of decimal digit characters. -/
def digitsVal (ds : List Char) : Nat :=
  ds.foldl (fun n c => n * 10 + (c.toNat - '0'.toNat)) 0

/-- Consume an optional leading sign; returns whether it was a minus
sign, and the rest. -/
def parseSign : List Char → Bool × List Char
  | '-' :: cs => (true, cs)
  | '+' :: cs => (false, cs)
  | cs => (false, cs)

/-- Parse a (prefix) decimal literal `digits [. digits] [e/E [sign] digits]`
returning its exact value and the unconsumed suffix, or `none` when not
even one digit is present.  An exponent marker without digits is left
unconsumed, as in JavaScript `parseFloat`. -/
def parseDecimal (cs : List Char) : Option (ℚ × List Char) :=
  let ip := cs.takeWhile Char.isDigit
  let r1 := cs.dropWhile Char.isDigit
  let fr : List Char × List Char :=
    match r1 with
    | '.' :: rest => (rest.takeWhile Char.isDigit, rest.dropWhile Char.isDigit)
    | _ => ([], r1)
  let fp := fr.1
  let r2 := fr.2
  if ip.isEmpty && fp.isEmpty then none
  else
    let mant : ℚ := qadd (digitsVal ip : ℚ) (qdiv (digitsVal fp : ℚ) (pow10 fp.length))
    let er : Int × List Char :=
      match r2 with
      | 'e' :: rest =>
        let sg := parseSign rest
        let ds := sg.2.takeWhile Char.isDigit
        if ds.isEmpty then ((0 : Int), r2)
        else ((if sg.1 then -(digitsVal ds : Int) else (digitsVal ds : Int)), sg.2.dropWhile Char.isDigit)
      | 'E' :: rest =>
        let sg := parseSign rest
        let ds := sg.2.takeWhile Char.isDigit
        if ds.isEmpty then ((0 : Int), r2)
        else ((if sg.1 then -(digitsVal ds : Int) else (digitsVal ds : Int)), sg.2.dropWhile Char.isDigit)
      | _ => ((0 : Int), r2)
    let value : ℚ :=
      if 0 ≤ er.1 then qmul mant (pow10 er.1.toNat) else qdiv mant (pow10 (-er.1).toNat)
    some (value, er.2)

/-- JavaScript `parseFloat`: skip leading whitespace, optional sign,
then either the literal `Infinity` or the longest decimal-literal
prefix; `NaN` when no such prefix exists. -/
def parseFloat (s : String) : JsNum :=
  let cs := s.toList.dropWhile isJsWhitespace
  let sg := parseSign cs
  if sg.2.take 8 = "Infinity".toList then (if sg.1 then .negInf else .posInf)
  else
    match parseDecimal sg.2 with
    | none => .nan
    | some (q, _) => .fin (if sg.1 then -q else q)

/-- Value of a hexadecimal digit character. -/
def hexDigitVal (c : Char) : Nat :=
  if '0' ≤ c ∧ c ≤ '9' then c.toNat - '0'.toNat
  else if 'a' ≤ c ∧ c ≤ 'f' then c.toNat - 'a'.toNat + 10
  else if 'A' ≤ c ∧ c ≤ 'F' then c.toNat - 'A'.toNat + 10
  else 0

/-- Whether a character is a digit of the given radix (16, 8 or 2). -/
def isRadixDigit (radix : Nat) (c : Char) : Bool :=
  if radix = 16 then c.isDigit || ('a' ≤ c && c ≤ 'f') || ('A' ≤ c && c ≤ 'F')
  else if radix = 8 then '0' ≤ c && c ≤ '7'
  else c = '0' || c = '1'

/-- Value of a digit string in the given radix. -/
def radixVal (radix : Nat) (ds : List Char) : Nat :=
  ds.foldl (fun n c => n * radix + hexDigitVal c) 0

/-- Radix-prefixed branch of JavaScript `Number`: the digits after
`0x` / `0o` / `0b`, or `NaN` when empty or malformed. -/
def jsNumberRadix (radix : Nat) (rest : List Char) : JsNum :=
  if rest.isEmpty then .nan
  else if rest.all (isRadixDigit radix) then .fin ((radixVal radix rest : ℚ)) else .nan

/-- JavaScript `Number(string)`: trim whitespace, empty string is 0,
radix-prefixed integer literals, otherwise a signed `Infinity` or a
decimal literal that must consume the whole string. -/
def jsNumber (s : String) : JsNum :=
  let cs := ((s.toList.dropWhile isJsWhitespace).reverse.dropWhile isJsWhitespace).reverse
  if cs.isEmpty then .fin 0
  else
    match cs with
    | '0' :: 'x' :: rest => jsNumberRadix 16 rest
    | '0' :: 'X' :: rest => jsNumberRadix 16 rest
    | '0' :: 'o' :: rest => jsNumberRadix 8 rest
    | '0' :: 'O' :: rest => jsNumberRadix 8 rest
    | '0' :: 'b' :: rest => jsNumberRadix 2 rest
    | '0' :: 'B' :: rest => jsNumberRadix 2 rest
    | _ =>
      let sg := parseSign cs
      if sg.2 = "Infinity".toList then (if sg.1 then .negInf else .posInf)
      else
        match parseDecimal sg.2 with
        | none => .nan
        | some (q, rest) => if rest.isEmpty then .fin (if sg.1 then -q else q) else .nan

/-! ## Embedding of `src/lib/csv-parser.ts` -/

/-- The four inferable column types of `csv-parser.ts`. -/
inductive ColType where
  | string
  | number
  | date
  | boolean
deriving DecidableEq

/-- Column descriptor (`CSVColumn` in `csv-parser.ts`). -/
structure CSVColumn where
  name : String
  type : ColType
  index : Nat
deriving DecidableEq

/-- Dataset (`CSVData` in `csv-parser.ts`). -/
structure CSVData where
  headers : List String
  rows : List (List String)
  columns : List CSVColumn
  rowCount : Nat
deriving DecidableEq

/-- Parsing configuration (`CSVSettings` in `csv-parser.ts`). -/
structure CSVSettings where
  delimiter : String
  hasHeader : Bool
  encoding : String
  skipEmptyLines : Bool
deriving DecidableEq

/-- `DEFAULT_CSV_SETTINGS` from `csv-parser.ts`. -/
def DEFAULT_CSV_SETTINGS : CSVSettings :=
  { delimiter := "", hasHeader := true, encoding := "UTF-8", skipEmptyLines := true }

/-- The fixed recognized boolean token set of `inferColumnType`. -/
def booleanValues : List String :=
  ["true", "false", "yes", "no", "1", "0", "oui", "non"]

/-- One value passes the boolean rule: `booleanValues.includes(v.toLowerCase().trim())`. -/
def isBooleanValue (v : String) : Bool :=
  booleanValues.contains (jsTrim (jsToLower v))

/-- Drop every whitespace character and every comma, as the regexp
replace `v.replace(/[\s,]/g, "")` does. -/
def stripWsCommas (v : String) : String :=
  String.mk (v.toList.filter (fun c => !(isJsWhitespace c || c = ',')))

/-- Replace the first comma by a period, as `.replace(",", ".")` does
(on the stripped string this is the identity, since no comma remains;
kept for fidelity to the source). -/
def replaceFirstComma : List Char → List Char
  | [] => []
  | c :: cs => if c = ',' then '.' :: cs else c :: replaceFirstComma cs

/-- The `cleaned` string of the numeric rule of `inferColumnType`. -/
def cleanedNumber (v : String) : String :=
  String.mk (replaceFirstComma (stripWsCommas v).toList)

/-- One value passes the numeric rule:
`!isNaN(parseFloat(cleaned)) && isFinite(Number(cleaned))`. -/
def isNumericValue (v : String) : Bool :=
  let cleaned := cleanedNumber v
  !(parseFloat cleaned = .nan) && jsIsFinite (jsNumber cleaned)

/-- The pattern `^\d{4}-\d{2}-\d{2}$`. -/
def datePat1 : List Char → Bool
  | [a, b, c, d, '-', e, f, '-', g, h] =>
    a.isDigit && b.isDigit && c.isDigit && d.isDigit && e.isDigit && f.isDigit &&
      g.isDigit && h.isDigit
  | _ => false

/-- The pattern `^\d{2}\/\d{2}\/\d{4}$`. -/
def datePat2 : List Char → Bool
  | [a, b, '/', c, d, '/', e, f, g, h] =>
    a.isDigit && b.isDigit && c.isDigit && d.isDigit && e.isDigit && f.isDigit &&
      g.isDigit && h.isDigit
  | _ => false

/-- The pattern `^\d{2}-\d{2}-\d{4}$`. -/
def datePat3 : List Char → Bool
  | [a, b, '-', c, d, '-', e, f, g, h] =>
    a.isDigit && b.isDigit && c.isDigit && d.isDigit && e.isDigit && f.isDigit &&
      g.isDigit && h.isDigit
  | _ => false

/-- The pattern `^\d{4}\/\d{2}\/\d{2}$`. -/
def datePat4 : List Char → Bool
  | [a, b, c, d, '/', e, f, '/', g, h] =>
    a.isDigit && b.isDigit && c.isDigit && d.isDigit && e.isDigit && f.isDigit &&
      g.isDigit && h.isDigit
  | _ => false

/-- One value passes the date rule: its trim matches at least one of
the four fixed date patterns. -/
def isDateValue (v : String) : Bool :=
  let cs := (jsTrim v).toList
  datePat1 cs || datePat2 cs || datePat3 cs || datePat4 cs

/-- `inferColumnType` from `csv-parser.ts`: sample the first
`min(length, 100)` values, drop the blank ones, and test the rules in
the order boolean, number, date; default to string. -/
def inferColumnType (values : List String) : ColType :=
  let sampleSize := min values.length 100
  let sample := (values.take sampleSize).filter (fun v => jsTrim v ≠ "")
  if sample.isEmpty then .string
  else if sample.all isBooleanValue then .boolean
  else if sample.all isNumericValue then .number
  else if sample.all isDateValue then .date
  else .string

/-- `detectDelimiter` from `csv-parser.ts`: count occurrences of each
candidate in the sample and keep the best (`reduce` keeps the later
candidate on ties); comma when every count is zero. -/
def detectDelimiter (sample : String) : String :=
  let delimiters := [",", ";", "\t", "|"]
  let counts := delimiters.map (fun d =>
    (d, (sample.toList.filter (fun c => c ∈ d.toList)).length))
  let best := (counts.drop 1).foldl (fun a b => if a.2 > b.2 then a else b)
    (counts.headD (",", 0))
  if best.2 > 0 then best.1 else ","

/-- State of the row scanner: the current field (reversed), the fields
of the current row (reversed), the finished rows (reversed), whether the
scanner is inside a quoted section, and whether the previous character
closed a quoted section (to recognise a doubled quote). -/
structure RPState where
  field : List Char
  row : List String
  rows : List (List String)
  inQuotes : Bool
  justClosed : Bool
deriving DecidableEq

/-- One scanner step over one character.  Part of the model of the Row
Parser (see `rowParse`). -/
def rpStep (delim : Char) (st : RPState) (c : Char) : RPState :=
  if st.inQuotes then
    if c = '"' then { st with inQuotes := false, justClosed := true }
    else { st with field := c :: st.field, justClosed := false }
  else if c = '"' then
    if st.justClosed then { st with field := '"' :: st.field, inQuotes := true, justClosed := false }
    else { st with inQuotes := true, justClosed := false }
  else if c = delim then
    { field := [], row := String.mk st.field.reverse :: st.row, rows := st.rows,
      inQuotes := false, justClosed := false }
  else if c = '\n' then
    let f := match st.field with
      | '\r' :: rest => rest
      | f => f
    { field := [], row := [],
      rows := ((String.mk f.reverse :: st.row).reverse) :: st.rows,
      inQuotes := false, justClosed := false }
  else { st with field := c :: st.field, justClosed := false }

/-- Modelled from the spec: the Row Parser (section 4.2) is the external
`papaparse` library, whose code is not part of this repository, so it is
modelled here from the specification's contract: split raw text into
rows of string fields for a delimiter, honouring quoting (a quoted field
may contain embedded delimiters and newlines, a doubled quote inside a
quoted field is one literal quote), treating unterminated quotes
best-effort to the end of input, producing the empty sequence for empty
input, and dropping empty lines when the flag is set.  A multi-character
delimiter setting is represented by its first character. -/
def rowParse (content : String) (delim : String) (skipEmptyLines : Bool) : List (List String) :=
  if content = "" then []
  else
    let d := delim.toList.headD ','
    let final := content.toList.foldl (rpStep d)
      { field := [], row := [], rows := [], inQuotes := false, justClosed := false }
    let rows := ((String.mk final.field.reverse :: final.row).reverse :: final.rows).reverse
    if skipEmptyLines then rows.filter (fun r => r ≠ [""]) else rows

/-- Map with the element index, as JavaScript `array.map((x, i) => f)`;
recursion with an explicit start index. -/
def jsMapIdxFrom (f : Nat → α → β) : Nat → List α → List β
  | _, [] => []
  | i, a :: as => f i a :: jsMapIdxFrom f (i + 1) as

/-- Map with the element index starting at 0. -/
def jsMapIdx (f : Nat → α → β) (l : List α) : List β :=
  jsMapIdxFrom f 0 l

/-- The empty dataset returned by `parseCSV` for an empty parse. -/
def emptyCSVData : CSVData :=
  { headers := [], rows := [], columns := [], rowCount := 0 }

/-- The part of `parseCSV` after the `Papa.parse` call: header
synthesis, data-row selection, per-column type inference, and assembly
of the dataset from the parsed rows. -/
def parseCSVRows (allRows : List (List String)) (settings : CSVSettings) : CSVData :=
  if allRows.isEmpty then emptyCSVData
  else
    let firstRow := allRows.headD []
    let headers : List String :=
      if settings.hasHeader then
        jsMapIdx (fun i h => if jsTrim h = "" then "Column " ++ toString (i + 1) else jsTrim h)
          firstRow
      else
        jsMapIdx (fun i _ => "Column " ++ toString (i + 1)) firstRow
    let dataRows := if settings.hasHeader then allRows.tail else allRows
    let columns : List CSVColumn :=
      jsMapIdx (fun index name =>
        { name := name,
          type := inferColumnType (dataRows.map (fun row => row.getD index "")),
          index := index }) headers
    { headers := headers, rows := dataRows, columns := columns, rowCount := dataRows.length }

/-- The effective delimiter of `parseCSV`:
`settings.delimiter || detectDelimiter(content.slice(0, 2000))`. -/
def effDelimiter (content : String) (settings : CSVSettings) : String :=
  if settings.delimiter = "" then
    detectDelimiter (String.mk (content.toList.take 2000))
  else settings.delimiter

/-- `parseCSV` from `csv-parser.ts`: detect the delimiter if none is
configured, run the Row Parser, and build the dataset. -/
def parseCSV (content : String) (settings : CSVSettings) : CSVData :=
  parseCSVRows (rowParse content (effDelimiter content settings) settings.skipEmptyLines) settings

/-! ## Embedding of `processChartData` from `ChartDisplay.tsx` -/

/-- Aggregation kinds (`AggregationType` in `ai-service.ts`). -/
inductive AggregationType where
  | sum
  | avg
  | count
  | min
  | max
  | none
deriving DecidableEq

/-- The fields of a chart suggestion that `processChartData` reads. -/
structure ChartSuggestion where
  xAxis : String
  yAxis : String
  aggregation : AggregationType
deriving DecidableEq

/-- The tri-state sort order of `processChartData`. -/
inductive SortOrder where
  | none
  | asc
  | desc
deriving DecidableEq

/-- Per-group running accumulators (`{ sum, count, min, max }`). -/
structure GroupStats where
  sum : JsNum
  count : Nat
  min : JsNum
  max : JsNum
deriving DecidableEq

/-- The default accumulator used in count mode:
`{ sum: 0, count: 0, min: 0, max: 0 }`. -/
def dfltCount : GroupStats :=
  { sum := .fin 0, count := 0, min := .fin 0, max := .fin 0 }

/-- The default accumulator used in numeric mode:
`{ sum: 0, count: 0, min: Infinity, max: -Infinity }`. -/
def dfltNum : GroupStats :=
  { sum := .fin 0, count := 0, min := .posInf, max := .negInf }

/-- The numeric accumulator update of `processChartData` for one parsed
value: add to the sum, bump the count, fold into min and max. -/
def accNum (c : GroupStats) (v : JsNum) : GroupStats :=
  { sum := jsAdd c.sum v, count := c.count + 1, min := jsMin c.min v, max := jsMax c.max v }

/-- Insertion-order-preserving insert-or-update, the behaviour of the
JavaScript `Map` (`groups.get` / `groups.set`): an existing key is
updated in place, a new key is appended. -/
def mapUpsert (m : List (String × GroupStats)) (k : String) (d : GroupStats)
    (f : GroupStats → GroupStats) : List (String × GroupStats) :=
  match m with
  | [] => [(k, f d)]
  | (k1, v) :: rest => if k1 = k then (k1, f v) :: rest else (k1, v) :: mapUpsert rest k d f

/-- First-match lookup in the association list modelling the `Map`. -/
def lookupGroup (m : List (String × GroupStats)) (k : String) : Option GroupStats :=
  match m with
  | [] => Option.none
  | (k1, v) :: rest => if k1 = k then some v else lookupGroup rest k

/-- One row of the grouping loop of `processChartData`: read and trim
the x cell, skip the row when it is empty; in count mode bump the
count; otherwise, when a y column resolved, parse
`String(row[yIdx] ?? "0")` with `parseFloat` and fold it into the
group's accumulators unless it is `NaN`. -/
def aggStep (isCount : Bool) (yIdx : Option Nat) (xIdx : Nat)
    (groups : List (String × GroupStats)) (row : List String) : List (String × GroupStats) :=
  let xVal := jsTrim (row.getD xIdx "")
  if xVal = "" then groups
  else if isCount then
    mapUpsert groups xVal dfltCount (fun c => { c with count := c.count + 1 })
  else
    match yIdx with
    | some yi =>
      let yVal := parseFloat (row.getD yi "0")
      if yVal = .nan then groups
      else mapUpsert groups xVal dfltNum (fun c => accNum c yVal)
    | Option.none => groups

/-- The per-group reduction of `processChartData`'s `switch` over the
aggregation kind (the `default` arm of the source returns the sum). -/
def aggValue (agg : AggregationType) (s : GroupStats) : JsNum :=
  match agg with
  | .sum => s.sum
  | .avg => if s.count > 0 then jsDivCount s.sum s.count else .fin 0
  | .count => .fin (s.count : ℚ)
  | .min => if s.min = .posInf then .fin 0 else s.min
  | .max => if s.max = .negInf then .fin 0 else s.max
  | .none => s.sum

/-- The aggregated branch of `processChartData`: fold all rows into the
group map, then emit one `(x key, rounded value)` pair per group in
discovery order. -/
def aggResult (data : CSVData) (agg : AggregationType) (xIdx : Nat) (yIdx : Option Nat) :
    List (String × JsNum) :=
  let groups := data.rows.foldl (aggStep (agg = .count) yIdx xIdx) []
  groups.map (fun g => (g.1, jsRound2 (aggValue agg g.2)))

/-- The point built for one row in raw mode:
`{x: row[xIdx] ?? "", y: parseFloat(String(row[yIdx] ?? "0"))}`. -/
def rawPoint (xIdx yIdx : Nat) (row : List String) : String × JsNum :=
  (row.getD xIdx "", parseFloat (row.getD yIdx "0"))

/-- The raw branch of `processChartData`: map at most
`min(limit * 2, rows.length)` rows to points and drop the points whose
y is `NaN`. -/
def rawResult (data : CSVData) (xIdx yIdx : Nat) (limit : Nat) : List (String × JsNum) :=
  ((data.rows.take (min (limit * 2) data.rows.length)).map (rawPoint xIdx yIdx)).filter
    (fun p => !(p.2 = .nan))

/-- Case-insensitive column resolution:
`data.columns.find(c => c.name.toLowerCase() === name.toLowerCase())`. -/
def resolveCol (data : CSVData) (name : String) : Option CSVColumn :=
  data.columns.find? (fun c => jsToLower c.name = jsToLower name)

/-- The sequence `result` of `processChartData` before sorting and
limiting: the aggregated branch when the aggregation is not `none`,
otherwise the raw branch (empty when no y column resolves there). -/
def pipelineBase (data : CSVData) (chart : ChartSuggestion) (limit : Nat) :
    List (String × JsNum) :=
  match resolveCol data chart.xAxis with
  | Option.none => []
  | some xc =>
    let yOpt := resolveCol data chart.yAxis
    if chart.aggregation = .none then
      match yOpt with
      | some yc => rawResult data xc.index yc.index limit
      | Option.none => []
    else
      aggResult data chart.aggregation xc.index (yOpt.map (fun c => c.index))

/-- The comparator of `processChartData`'s sort:
`desc ? bVal - aVal : aVal - bVal`, on the y components. -/
def sortCmp (ord : SortOrder) (a b : String × JsNum) : JsNum :=
  if ord = .desc then jsSub b.2 a.2 else jsSub a.2 b.2

/-- The order in which a stable JavaScript sort keeps `a` before `b`:
the comparator does not return a positive number on `(a, b)`. -/
def sortLe (ord : SortOrder) (a b : String × JsNum) : Bool :=
  !(jsGtZero (sortCmp ord a b))

/-- The sort of `processChartData`, embedded as a stable sort
(insertion sort) under `sortLe`; for a consistent comparator this is
exactly the result JavaScript `Array.prototype.sort` must produce. -/
def sortPairs (ord : SortOrder) (l : List (String × JsNum)) : List (String × JsNum) :=
  l.insertionSort (fun a b => sortLe ord a b = true)

/-- `processChartData` from `ChartDisplay.tsx`.  The source returns `[]`
directly when no x column resolves; here the empty base sequence flows
through sort and limit, which fix the empty list, so the results agree. -/
def processChartData (data : CSVData) (chart : ChartSuggestion) (ord : SortOrder)
    (limit : Nat) : List (String × JsNum) :=
  let base := pipelineBase data chart limit
  let sorted := if ord = .none then base else sortPairs ord base
  sorted.take limit

/-! ## Specification-side definitions used to state the claims -/

/-- The parsed y values that the rows contribute to the group of a
given x key: for each row whose trimmed x cell equals the key, the
`parseFloat` of its y cell, kept only when it is not `NaN`. -/
def numericYs (xi yi : Nat) (key : String) : List (List String) → List JsNum
  | [] => []
  | row :: rows =>
    if jsTrim (row.getD xi "") = key ∧ ¬(parseFloat (row.getD yi "0") = .nan) then
      parseFloat (row.getD yi "0") :: numericYs xi yi key rows
    else numericYs xi yi key rows

/-- Folding a list of parsed values into an accumulator with the
numeric update `accNum`. -/
def statsFold (s : GroupStats) (vs : List JsNum) : GroupStats :=
  vs.foldl accNum s

/-- The aggregation step as claim C1 states it: the y cell is first
normalized exactly as in `inferColumnType` (strip whitespace and
thousands separators, decimal-comma handling) and a cell is kept
exactly when it passes that numeric rule.  This definition follows the
specification's words and exists to be compared with `aggStep`, which
follows the source. -/
def aggStepSpecNorm (yi xi : Nat) (groups : List (String × GroupStats))
    (row : List String) : List (String × GroupStats) :=
  let xVal := jsTrim (row.getD xi "")
  if xVal = "" then groups
  else
    let cell := row.getD yi "0"
    if isNumericValue cell then
      mapUpsert groups xVal dfltNum (fun c => accNum c (parseFloat (cleanedNumber cell)))
    else groups

/-- The aggregated branch as claim C1 states it (normalized parsing),
built from `aggStepSpecNorm` the same way `aggResult` is built from
`aggStep`. -/
def aggResultSpecNorm (data : CSVData) (agg : AggregationType) (xIdx yIdx : Nat) :
    List (String × JsNum) :=
  (data.rows.foldl (aggStepSpecNorm yIdx xIdx) []).map
    (fun g => (g.1, jsRound2 (aggValue agg g.2)))

/-- Order on JavaScript numbers used to state sortedness of the
pipeline's output: bottom-to-top `NaN`, `-Infinity`, finite values by
value, `Infinity`. -/
def jsKeyLe : JsNum → JsNum → Bool
  | .nan, _ => true
  | _, .nan => false
  | .negInf, _ => true
  | _, .negInf => false
  | .fin a, .fin b => a ≤ b
  | .fin _, .posInf => true
  | .posInf, .fin _ => false
  | .posInf, .posInf => true

/-- The y-only key order corresponding to a requested sort order. -/
def keyLeOf (ord : SortOrder) (a b : String × JsNum) : Bool :=
  if ord = .desc then jsKeyLe b.2 a.2 else jsKeyLe a.2 b.2

/-! ## Concrete datasets and chart specifications used in the claim
theorems and their witnesses -/

def c3Data : CSVData :=
  { headers := ["a"], rows := [["1"]], columns := [⟨"a", .boolean, 0⟩], rowCount := 1 }

def c7Settings : CSVSettings :=
  { delimiter := ",", hasHeader := true, encoding := "UTF-8", skipEmptyLines := true }

def c1Data : CSVData :=
  { headers := ["x", "y"], rows := [["A", ",5"]],
    columns := [⟨"x", .string, 0⟩, ⟨"y", .string, 1⟩], rowCount := 1 }

def c1Chart : ChartSuggestion := ⟨"x", "y", .sum⟩

def c2Data : CSVData :=
  { headers := ["x", "y"], rows := [["A", "abc"]],
    columns := [⟨"x", .string, 0⟩, ⟨"y", .string, 1⟩], rowCount := 1 }

def c2Chart : ChartSuggestion := ⟨"x", "y", .min⟩

def c2ExData : CSVData :=
  { headers := ["x", "y"], rows := [["A", "5"], ["A", "3"], ["B", "abc"]],
    columns := [⟨"x", .string, 0⟩, ⟨"y", .string, 1⟩], rowCount := 3 }

def c4Data : CSVData :=
  { headers := ["x", "y"], rows := [["A", "Infinity"]],
    columns := [⟨"x", .string, 0⟩, ⟨"y", .string, 1⟩], rowCount := 1 }

def c4Chart : ChartSuggestion := ⟨"x", "y", .none⟩

def c4ExData : CSVData :=
  { headers := ["x", "y"], rows := [["A", "10"], ["B", "x"]],
    columns := [⟨"x", .string, 0⟩, ⟨"y", .number, 1⟩], rowCount := 2 }

def c4ExChart : ChartSuggestion := ⟨"x", "y", .none⟩

def c6Data : CSVData :=
  { headers := ["x", "y"], rows := [["A", "10"], ["B", "5"], ["A", "3"]],
    columns := [⟨"x", .string, 0⟩, ⟨"y", .number, 1⟩], rowCount := 3 }

def c6Chart : ChartSuggestion := ⟨"x", "y", .sum⟩

/-! ## Helper lemmas -/

lemma qsub_eq (a b : ℚ) : qsub a b = a - b := by
  unfold qsub
  rw [Rat.mkRat_eq_div]
  have ha : ((a.den : ℚ)) ≠ 0 := Nat.cast_ne_zero.mpr a.den_nz
  have hb : ((b.den : ℚ)) ≠ 0 := Nat.cast_ne_zero.mpr b.den_nz
  conv_rhs => rw [← Rat.num_div_den a, ← Rat.num_div_den b]
  rw [div_sub_div _ _ ha hb]
  push_cast
  ring_nf

lemma lookupGroup_mapUpsert_self (m : List (String × GroupStats)) (k : String)
    (d : GroupStats) (f : GroupStats → GroupStats) :
    lookupGroup (mapUpsert m k d f) k = some (f ((lookupGroup m k).getD d)) := by
  induction m with
  | nil => simp [mapUpsert, lookupGroup]
  | cons h t ih =>
    obtain ⟨k1, v⟩ := h
    by_cases hk : k1 = k <;> simp [mapUpsert, lookupGroup, hk, ih]

lemma lookupGroup_mapUpsert_ne (m : List (String × GroupStats)) (k : String)
    (d : GroupStats) (f : GroupStats → GroupStats) (k2 : String) (h : k2 ≠ k) :
    lookupGroup (mapUpsert m k d f) k2 = lookupGroup m k2 := by
  have hne : ¬(k = k2) := fun hh => h hh.symm
  induction m with
  | nil => simp [mapUpsert, lookupGroup, hne]
  | cons hd t ih =>
    obtain ⟨k1, v⟩ := hd
    by_cases hk : k1 = k
    · subst hk
      simp [mapUpsert, lookupGroup, hne]
    · by_cases hk2 : k1 = k2
      · subst hk2
        simp [mapUpsert, lookupGroup, hk]
      · simp [mapUpsert, lookupGroup, hk, hk2, ih]

lemma lookupGroup_some_mem (m : List (String × GroupStats)) (k : String) (s : GroupStats)
    (h : lookupGroup m k = some s) : (k, s) ∈ m := by
  induction m with
  | nil => simp [lookupGroup] at h
  | cons hd t ih =>
    obtain ⟨k1, v⟩ := hd
    by_cases hk : k1 = k
    · subst hk
      simp [lookupGroup] at h
      simp [h]
    · simp [lookupGroup, hk] at h
      simp [ih h]

lemma lookupGroup_none_not_mem (m : List (String × GroupStats)) (k : String)
    (s : GroupStats) (h : lookupGroup m k = Option.none) : (k, s) ∉ m := by
  induction m with
  | nil => simp
  | cons hd t ih =>
    obtain ⟨k1, v⟩ := hd
    by_cases hk : k1 = k
    · subst hk
      simp [lookupGroup] at h
    · simp [lookupGroup, hk] at h
      simp [hk, ih h]
      intro hh
      exact absurd hh.symm hk

lemma statsFold_cons (s : GroupStats) (v : JsNum) (vs : List JsNum) :
    statsFold s (v :: vs) = statsFold (accNum s v) vs := rfl

lemma statsFold_min (s : GroupStats) (vs : List JsNum) :
    (statsFold s vs).min = vs.foldl jsMin s.min := by
  induction vs generalizing s with
  | nil => rfl
  | cons v vs ih => simp [statsFold_cons, ih, List.foldl_cons, accNum]

lemma statsFold_max (s : GroupStats) (vs : List JsNum) :
    (statsFold s vs).max = vs.foldl jsMax s.max := by
  induction vs generalizing s with
  | nil => rfl
  | cons v vs ih => simp [statsFold_cons, ih, List.foldl_cons, accNum]

lemma statsFold_count (s : GroupStats) (vs : List JsNum) :
    (statsFold s vs).count = s.count + vs.length := by
  induction vs generalizing s with
  | nil => rfl
  | cons v vs ih => simp [statsFold_cons, ih, List.foldl_cons, accNum]; omega


lemma aggStep_x_empty (yi xi : Nat) (groups : List (String × GroupStats)) (row : List String)
    (hx0 : jsTrim (row.getD xi "") = "") :
    aggStep false (some yi) xi groups row = groups := by
  simp only [aggStep, hx0]
  simp

lemma aggStep_nan (yi xi : Nat) (groups : List (String × GroupStats)) (row : List String)
    (hv : parseFloat (row.getD yi "0") = .nan) :
    aggStep false (some yi) xi groups row = groups := by
  simp only [aggStep, hv]
  simp

lemma aggStep_upd (yi xi : Nat) (groups : List (String × GroupStats)) (row : List String)
    (hx0 : ¬(jsTrim (row.getD xi "") = ""))
    (hv : ¬(parseFloat (row.getD yi "0") = .nan)) :
    aggStep false (some yi) xi groups row =
      mapUpsert groups (jsTrim (row.getD xi "")) dfltNum
        (fun c => accNum c (parseFloat (row.getD yi "0"))) := by
  simp only [aggStep]
  rw [if_neg hx0]
  simp only [Bool.false_eq_true, if_false]
  rw [if_neg hv]

lemma lookupGroup_foldl_aggStep (yi xi : Nat) (key : String) (hkey : key ≠ "")
    (rows : List (List String)) (groups : List (String × GroupStats)) :
    lookupGroup (rows.foldl (aggStep false (some yi) xi) groups) key =
      (if lookupGroup groups key = Option.none ∧ numericYs xi yi key rows = []
       then Option.none
       else some (statsFold ((lookupGroup groups key).getD dfltNum)
         (numericYs xi yi key rows))) := by
  induction rows generalizing groups with
  | nil =>
    cases h : lookupGroup groups key <;> simp [h, numericYs, statsFold]
  | cons row rest ih =>
    rw [List.foldl_cons]
    by_cases hx0 : jsTrim (row.getD xi "") = ""
    · have hxk : ¬(jsTrim (row.getD xi "") = key) := by
        rw [hx0]; exact fun hh => hkey hh.symm
      rw [aggStep_x_empty _ _ _ _ hx0, ih groups]
      have hys : numericYs xi yi key (row :: rest) = numericYs xi yi key rest := by
        simp only [numericYs]
        rw [if_neg (fun hh => hxk hh.1)]
      rw [hys]
    · by_cases hv : parseFloat (row.getD yi "0") = .nan
      · rw [aggStep_nan _ _ _ _ hv, ih groups]
        have hys : numericYs xi yi key (row :: rest) = numericYs xi yi key rest := by
          simp only [numericYs]
          rw [if_neg (fun hh => hh.2 hv)]
        rw [hys]
      · by_cases hxk : jsTrim (row.getD xi "") = key
        · have hys : numericYs xi yi key (row :: rest) =
              parseFloat (row.getD yi "0") :: numericYs xi yi key rest := by
            simp only [numericYs]
            rw [if_pos ⟨hxk, hv⟩]
          rw [aggStep_upd _ _ _ _ hx0 hv, hxk, ih, hys,
            lookupGroup_mapUpsert_self]
          rw [if_neg (by simp), if_neg (by simp)]
          simp only [Option.getD_some]
          rw [statsFold_cons]
        · have hys : numericYs xi yi key (row :: rest) = numericYs xi yi key rest := by
            simp only [numericYs]
            rw [if_neg (fun hh => hxk hh.1)]
          rw [aggStep_upd _ _ _ _ hx0 hv, ih,
            lookupGroup_mapUpsert_ne _ _ _ _ _ (fun hh => hxk hh.symm), hys]

lemma jsKeyLe_refl (a : JsNum) : jsKeyLe a a = true := by
  cases a <;> simp [jsKeyLe]

lemma jsKeyLe_trans (a b c : JsNum) (h1 : jsKeyLe a b = true) (h2 : jsKeyLe b c = true) :
    jsKeyLe a c = true := by
  cases a <;> cases b <;> cases c <;> simp_all [jsKeyLe]
  linarith

lemma jsKeyLe_total (a b : JsNum) : jsKeyLe a b = true ∨ jsKeyLe b a = true := by
  cases a <;> cases b <;> simp [jsKeyLe]
  exact le_total _ _

lemma keyLeOf_desc (a b : String × JsNum) : keyLeOf .desc a b = jsKeyLe b.2 a.2 := by
  simp [keyLeOf]

lemma keyLeOf_not_desc (ord : SortOrder) (hord : ¬(ord = .desc)) (a b : String × JsNum) :
    keyLeOf ord a b = jsKeyLe a.2 b.2 := by
  simp [keyLeOf, hord]

lemma keyLeOf_trans (ord : SortOrder) (a b c : String × JsNum)
    (h1 : keyLeOf ord a b = true) (h2 : keyLeOf ord b c = true) : keyLeOf ord a c = true := by
  by_cases hord : ord = .desc
  · subst hord
    rw [keyLeOf_desc] at h1 h2 ⊢
    exact jsKeyLe_trans _ _ _ h2 h1
  · rw [keyLeOf_not_desc ord hord] at h1 h2 ⊢
    exact jsKeyLe_trans _ _ _ h1 h2

lemma keyLeOf_total (ord : SortOrder) (a b : String × JsNum) :
    keyLeOf ord a b = true ∨ keyLeOf ord b a = true := by
  by_cases hord : ord = .desc
  · subst hord
    rw [keyLeOf_desc, keyLeOf_desc]
    exact Or.symm (jsKeyLe_total _ _)
  · rw [keyLeOf_not_desc ord hord, keyLeOf_not_desc ord hord]
    exact jsKeyLe_total _ _

lemma sortLe_eq_keyLe (ord : SortOrder) (a b : String × JsNum)
    (ha : ¬(a.2 = JsNum.nan)) (hb : ¬(b.2 = JsNum.nan)) :
    sortLe ord a b = keyLeOf ord a b := by
  obtain ⟨xa, ya⟩ := a
  obtain ⟨xb, yb⟩ := b
  simp only at ha hb
  by_cases hord : ord = .desc <;>
    cases ya <;> cases yb <;>
      simp_all [sortLe, sortCmp, keyLeOf, jsSub, jsGtZero, jsKeyLe, qsub_eq, sub_pos, not_lt]
  all_goals rw [← decide_not, decide_eq_decide]
  all_goals exact lt_iff_not_le

lemma sortLe_of_eq_y (ord : SortOrder) (a b : String × JsNum) (h : a.2 = b.2) :
    sortLe ord a b = true := by
  obtain ⟨xa, ya⟩ := a
  obtain ⟨xb, yb⟩ := b
  simp only at h
  subst h
  by_cases hord : ord = .desc <;>
    cases ya <;> simp_all [sortLe, sortCmp, jsSub, jsGtZero, qsub_eq]

lemma sortPairs_eq_key (ord : SortOrder) (l : List (String × JsNum))
    (h : ∀ p ∈ l, ¬(p.2 = JsNum.nan)) :
    sortPairs ord l = l.insertionSort (fun a b => keyLeOf ord a b = true) := by
  unfold sortPairs
  have hmap := List.map_insertionSort (fun a b : String × JsNum => sortLe ord a b = true)
    (fun a b : String × JsNum => keyLeOf ord a b = true) id l
    (fun a ha b hb => by
      simp only [id]
      rw [sortLe_eq_keyLe ord a b (h a ha) (h b hb)])
  simpa using hmap

lemma sortPairs_perm (ord : SortOrder) (l : List (String × JsNum)) :
    List.Perm (sortPairs ord l) l :=
  List.perm_insertionSort _ l

lemma sortPairs_sorted (ord : SortOrder) (l : List (String × JsNum))
    (h : ∀ p ∈ l, ¬(p.2 = JsNum.nan)) :
    List.Pairwise (fun a b => keyLeOf ord a b = true) (sortPairs ord l) := by
  rw [sortPairs_eq_key ord l h]
  haveI : IsTrans (String × JsNum) (fun a b => keyLeOf ord a b = true) :=
    ⟨fun a b c h1 h2 => keyLeOf_trans ord a b c h1 h2⟩
  haveI : IsTotal (String × JsNum) (fun a b => keyLeOf ord a b = true) :=
    ⟨fun a b => keyLeOf_total ord a b⟩
  exact List.sorted_insertionSort _ l

lemma sortPairs_stable (ord : SortOrder) (l : List (String × JsNum))
    (a b : String × JsNum) (hab : a.2 = b.2) (h : List.Sublist [a, b] l) :
    List.Sublist [a, b] (sortPairs ord l) :=
  List.pair_sublist_insertionSort (sortLe_of_eq_y ord a b hab) h

/-- C3: for every dataset and chart specification whose xAxis has no
case-insensitive match among the dataset's columns, the aggregation
pipeline returns the empty sequence (and, being a total function, does
not raise), regardless of the aggregation kind, sort order and limit. -/
theorem c3_unresolved_x_yields_empty (data : CSVData) (chart : ChartSuggestion)
    (ord : SortOrder) (lim : Nat)
    (h : ∀ c ∈ data.columns, ¬(jsToLower c.name = jsToLower chart.xAxis)) :
    processChartData data chart ord lim = [] := by
  have hres : resolveCol data chart.xAxis = Option.none := by
    simp only [resolveCol]
    apply List.find?_eq_none.mpr
    intro c hc
    simp [h c hc]
  simp [processChartData, pipelineBase, hres, sortPairs]


theorem c3_witness : processChartData c3Data ⟨"zz", "a", .count⟩ .desc 5 = [] :=
  c3_unresolved_x_yields_empty c3Data ⟨"zz", "a", .count⟩ .desc 5 (by decide)

/-- C7 (amended): for every input text and fixed delimiter, the Row
Parser's row count equals the built dataset's rowCount, plus one exactly
when `hasHeader` is set and the parse is non-empty (for an empty parse
no header row is consumed, so nothing is added). -/
theorem c7_rowcount_amended (content : String) (s : CSVSettings) :
    (rowParse content (effDelimiter content s) s.skipEmptyLines).length =
      (parseCSV content s).rowCount +
        (if s.hasHeader = true ∧ ¬(rowParse content (effDelimiter content s) s.skipEmptyLines = [])
         then 1 else 0) := by
  unfold parseCSV
  generalize rowParse content (effDelimiter content s) s.skipEmptyLines = rows
  cases rows with
  | nil => simp [parseCSVRows, emptyCSVData]
  | cons r rs =>
    by_cases hh : s.hasHeader = true <;> simp [parseCSVRows, hh]


/-- C7 counterexample: on empty input text with `hasHeader` set, the
Row Parser yields zero rows while the claim demands rowCount + 1. -/
theorem c7_counterexample :
    ¬((rowParse "" (effDelimiter "" c7Settings) c7Settings.skipEmptyLines).length =
        (parseCSV "" c7Settings).rowCount + (if c7Settings.hasHeader = true then 1 else 0)) := by
  decide

/-- C8: a parse that yields zero rows produces the empty dataset rather
than failing, and in particular empty input text always yields a dataset
with `rowCount = 0` (all functions involved are total). -/
theorem c8_empty_input :
    (∀ (content : String) (s : CSVSettings),
        rowParse content (effDelimiter content s) s.skipEmptyLines = [] →
        parseCSV content s = emptyCSVData)
    ∧ (∀ s : CSVSettings, parseCSV "" s = emptyCSVData) := by
  constructor
  · intro content s h
    unfold parseCSV
    rw [h]
    rfl
  · intro s
    unfold parseCSV
    have h : rowParse "" (effDelimiter "" s) s.skipEmptyLines = [] := by
      simp [rowParse]
    rw [h]
    rfl

/-- C10: when a row is shorter than the resolved y index, the y cell is
read as the literal string "0", which parses to the number 0; such a row
is folded into its group (count incremented, 0 into sum/min/max) and in
raw mode yields a kept point with y = 0. -/
theorem c10_short_row_reads_zero (yi xi : Nat) (groups : List (String × GroupStats))
    (row : List String) (hshort : row.length ≤ yi)
    (hx : ¬(jsTrim (row.getD xi "") = "")) :
    row.getD yi "0" = "0"
    ∧ parseFloat (row.getD yi "0") = JsNum.fin 0
    ∧ aggStep false (some yi) xi groups row =
        mapUpsert groups (jsTrim (row.getD xi "")) dfltNum (fun c => accNum c (JsNum.fin 0))
    ∧ rawPoint xi yi row = (row.getD xi "", JsNum.fin 0)
    ∧ ¬((rawPoint xi yi row).2 = JsNum.nan) := by
  have hcell : row.getD yi "0" = "0" := List.getD_eq_default _ _ hshort
  have hpf : parseFloat "0" = JsNum.fin 0 := by decide
  have hv : parseFloat (row.getD yi "0") = JsNum.fin 0 := by rw [hcell, hpf]
  have hvn : ¬(parseFloat (row.getD yi "0") = JsNum.nan) := by rw [hv]; intro hc; cases hc
  refine ⟨hcell, hv, ?_, ?_, ?_⟩
  · rw [aggStep_upd yi xi groups row hx hvn, hv]
  · show (row.getD xi "", parseFloat (row.getD yi "0")) = (row.getD xi "", JsNum.fin 0)
    rw [hv]
  · show ¬(parseFloat (row.getD yi "0") = JsNum.nan)
    exact hvn

theorem c10_witness :
    (["A"] : List String).getD 1 "0" = "0"
    ∧ parseFloat ((["A"] : List String).getD 1 "0") = JsNum.fin 0
    ∧ aggStep false (some 1) 0 [] ["A"] =
        mapUpsert [] (jsTrim ((["A"] : List String).getD 0 "")) dfltNum
          (fun c => accNum c (JsNum.fin 0))
    ∧ rawPoint 0 1 ["A"] = ((["A"] : List String).getD 0 "", JsNum.fin 0)
    ∧ ¬((rawPoint 0 1 ["A"]).2 = JsNum.nan) :=
  c10_short_row_reads_zero 1 0 [] ["A"] (by decide) (by decide)

theorem c8_witness : parseCSV "\n" DEFAULT_CSV_SETTINGS = emptyCSVData :=
  c8_empty_input.1 "\n" DEFAULT_CSV_SETTINGS (by decide)

/-- C5: schema inference is a total function of the column values; it
samples the first 100 values keeping the non-empty ones, returns string
when that sample is empty, and otherwise the first matching rule in the
strict precedence order boolean, number, date, string wins; the column
["0","1","0"] passes both the boolean and the numeric rule and infers
boolean, not number. -/
theorem c5_infer_precedence :
    (∀ (values sample : List String),
      sample = (values.take (min values.length 100)).filter (fun v => jsTrim v ≠ "") →
      (sample = [] → inferColumnType values = .string)
      ∧ (¬(sample = []) → sample.all isBooleanValue = true →
          inferColumnType values = .boolean)
      ∧ (¬(sample = []) → sample.all isBooleanValue = false →
          sample.all isNumericValue = true → inferColumnType values = .number)
      ∧ (¬(sample = []) → sample.all isBooleanValue = false →
          sample.all isNumericValue = false → sample.all isDateValue = true →
          inferColumnType values = .date)
      ∧ (¬(sample = []) → sample.all isBooleanValue = false →
          sample.all isNumericValue = false → sample.all isDateValue = false →
          inferColumnType values = .string))
    ∧ inferColumnType ["0", "1", "0"] = .boolean
    ∧ (["0", "1", "0"].all isBooleanValue = true ∧ ["0", "1", "0"].all isNumericValue = true) := by
  refine ⟨?_, by decide, by decide, by decide⟩
  intro values sample hs
  have hne : ∀ h0 : ¬(sample = []), sample.isEmpty = false := by
    intro h0
    cases sample with
    | nil => exact absurd rfl h0
    | cons a l => rfl
  refine ⟨?_, ?_, ?_, ?_, ?_⟩
  · intro h0
    simp only [inferColumnType]
    rw [← hs, h0]
    rfl
  · intro h0 h1
    simp only [inferColumnType]
    rw [← hs, hne h0, h1]
    rfl
  · intro h0 h1 h2
    simp only [inferColumnType]
    rw [← hs, hne h0, h1, h2]
    rfl
  · intro h0 h1 h2 h3
    simp only [inferColumnType]
    rw [← hs, hne h0, h1, h2, h3]
    rfl
  · intro h0 h1 h2 h3
    simp only [inferColumnType]
    rw [← hs, hne h0, h1, h2, h3]
    rfl

theorem c5_witness :
    inferColumnType ["12", "13"] = .number ∧ inferColumnType ["a", "2024-01-02"] = .string :=
  ⟨((c5_infer_precedence.1 ["12", "13"] _ rfl).2.2.1 (by decide) (by decide) (by decide)),
   ((c5_infer_precedence.1 ["a", "2024-01-02"] _ rfl).2.2.2.2 (by decide) (by decide)
     (by decide) (by decide))⟩

lemma jsMapIdxFrom_length (f : Nat → α → β) :
    ∀ (i : Nat) (l : List α), (jsMapIdxFrom f i l).length = l.length
  | _, [] => rfl
  | i, _ :: as => by simp [jsMapIdxFrom, jsMapIdxFrom_length f (i + 1) as]

lemma jsMapIdx_length (f : Nat → α → β) (l : List α) : (jsMapIdx f l).length = l.length :=
  jsMapIdxFrom_length f 0 l

lemma jsMapIdxFrom_getD (f : Nat → α → β) (b : β) (d : α) :
    ∀ (l : List α) (i j : Nat), j < l.length →
      (jsMapIdxFrom f i l).getD j b = f (i + j) (l.getD j d)
  | [], _, j, h => absurd h (by simp)
  | a :: as, i, 0, _ => by simp [jsMapIdxFrom]
  | a :: as, i, j + 1, h => by
    have hj : j < as.length := by simpa using h
    have hrec := jsMapIdxFrom_getD f b d as (i + 1) j hj
    have harith : i + 1 + j = i + (j + 1) := by omega
    simp only [jsMapIdxFrom, List.getD_cons_succ]
    rw [hrec, harith]

lemma jsMapIdx_getD (f : Nat → α → β) (b : β) (d : α) (l : List α) (j : Nat)
    (h : j < l.length) : (jsMapIdx f l).getD j b = f j (l.getD j d) := by
  have := jsMapIdxFrom_getD f b d l 0 j h
  rwa [Nat.zero_add] at this

/-- C9: every dataset built by the dataset builder satisfies the
dataset invariant: the column descriptors are aligned 1:1 with the
headers with `columns[i].index = i` and `columns[i].name = headers[i]`,
`rowCount` equals the number of rows, each column's type is inferred
over that column read from every row with absent trailing cells treated
as the empty string, and reading any row at the `headers.length` column
positions (absent cells defaulting to the empty string) yields exactly
`headers.length` cells. -/
theorem c9_dataset_invariant (allRows : List (List String)) (s : CSVSettings) :
    (parseCSVRows allRows s).columns.length = (parseCSVRows allRows s).headers.length
    ∧ (parseCSVRows allRows s).rowCount = (parseCSVRows allRows s).rows.length
    ∧ (∀ j, j < (parseCSVRows allRows s).columns.length →
        ((parseCSVRows allRows s).columns.getD j ⟨"", .string, 0⟩).index = j
        ∧ ((parseCSVRows allRows s).columns.getD j ⟨"", .string, 0⟩).name =
            (parseCSVRows allRows s).headers.getD j ""
        ∧ ((parseCSVRows allRows s).columns.getD j ⟨"", .string, 0⟩).type =
            inferColumnType ((parseCSVRows allRows s).rows.map (fun row => row.getD j "")))
    ∧ (∀ row ∈ (parseCSVRows allRows s).rows,
        ((List.range (parseCSVRows allRows s).headers.length).map
          (fun i => row.getD i "")).length = (parseCSVRows allRows s).headers.length) := by
  cases allRows with
  | nil =>
    refine ⟨rfl, rfl, ?_, ?_⟩
    · intro j hj
      exact absurd hj (by simp [parseCSVRows, emptyCSVData])
    · intro row hrow
      exact absurd hrow (by simp [parseCSVRows, emptyCSVData])
  | cons r rs =>
    have hunfold : parseCSVRows (r :: rs) s =
        { headers := (if s.hasHeader then
            jsMapIdx (fun i h => if jsTrim h = "" then "Column " ++ toString (i + 1) else jsTrim h) r
          else jsMapIdx (fun i _ => "Column " ++ toString (i + 1)) r),
          rows := (if s.hasHeader then rs else r :: rs),
          columns := jsMapIdx (fun index name =>
            { name := name,
              type := inferColumnType ((if s.hasHeader then rs else r :: rs).map
                (fun row => row.getD index "")),
              index := index })
            (if s.hasHeader then
              jsMapIdx (fun i h => if jsTrim h = "" then "Column " ++ toString (i + 1) else jsTrim h) r
            else jsMapIdx (fun i _ => "Column " ++ toString (i + 1)) r),
          rowCount := (if s.hasHeader then rs else r :: rs).length } := by
      by_cases hh : s.hasHeader = true <;>
        simp [parseCSVRows, hh]
    rw [hunfold]
    refine ⟨jsMapIdx_length _ _, rfl, ?_, ?_⟩
    · intro j hj
      rw [jsMapIdx_length] at hj
      rw [jsMapIdx_getD _ _ "" _ j hj]
      exact ⟨rfl, rfl, rfl⟩
    · intro row hrow
      simp

theorem c9_witness :
    ((parseCSVRows [["a", "b"], ["1"]] DEFAULT_CSV_SETTINGS).columns.getD 1
        ⟨"", .string, 0⟩).index = 1
    ∧ (parseCSVRows [["a", "b"], ["1"]] DEFAULT_CSV_SETTINGS).rowCount =
        (parseCSVRows [["a", "b"], ["1"]] DEFAULT_CSV_SETTINGS).rows.length :=
  ⟨((c9_dataset_invariant [["a", "b"], ["1"]] DEFAULT_CSV_SETTINGS).2.2.1 1 (by decide)).1,
   (c9_dataset_invariant [["a", "b"], ["1"]] DEFAULT_CSV_SETTINGS).2.1⟩



/-- C1 counterexample: the y cell ",5" passes the type-inference
normalization (it cleans to "5", value 5), so under the claimed
behaviour the group A would be emitted with value 5; the code parses the
raw cell with plain `parseFloat`, gets `NaN`, skips the row, and returns
no groups at all. -/
theorem c1_counterexample :
    processChartData c1Data c1Chart .none 20 = []
    ∧ isNumericValue ",5" = true
    ∧ aggResultSpecNorm c1Data .sum 0 1 = [("A", JsNum.fin 5)]
    ∧ ¬(processChartData c1Data c1Chart .none 20 = aggResultSpecNorm c1Data .sum 0 1) := by
  refine ⟨by decide, by decide, by decide, by decide⟩

/-- C1 (amended): in the numeric aggregation modes the y cell is parsed
with plain `parseFloat` and no normalization; a cell whose `parseFloat`
is `NaN` is silently skipped (the group map is left entirely unchanged:
no count increment, no min/max perturbation), and a cell that parses
folds exactly that parsed value into its group's accumulators, leaving
every other group untouched. -/
theorem c1_plain_parsefloat_skip (yi xi : Nat) (groups : List (String × GroupStats))
    (row : List String) :
    (parseFloat (row.getD yi "0") = JsNum.nan →
      aggStep false (some yi) xi groups row = groups)
    ∧ (¬(parseFloat (row.getD yi "0") = JsNum.nan) → ¬(jsTrim (row.getD xi "") = "") →
        lookupGroup (aggStep false (some yi) xi groups row) (jsTrim (row.getD xi "")) =
          some (accNum ((lookupGroup groups (jsTrim (row.getD xi ""))).getD dfltNum)
            (parseFloat (row.getD yi "0"))))
    ∧ (¬(parseFloat (row.getD yi "0") = JsNum.nan) → ¬(jsTrim (row.getD xi "") = "") →
        ∀ k2, ¬(k2 = jsTrim (row.getD xi "")) →
          lookupGroup (aggStep false (some yi) xi groups row) k2 = lookupGroup groups k2) := by
  refine ⟨fun hv => aggStep_nan _ _ _ _ hv, fun hv hx => ?_, fun hv hx k2 hk2 => ?_⟩
  · rw [aggStep_upd _ _ _ _ hx hv, lookupGroup_mapUpsert_self]
  · rw [aggStep_upd _ _ _ _ hx hv, lookupGroup_mapUpsert_ne _ _ _ _ _ hk2]

theorem c1_amended_witness :
    aggStep false (some 1) 0 [] ["A", "x"] = []
    ∧ lookupGroup (aggStep false (some 1) 0 [] ["A", "5"])
        (jsTrim ((["A", "5"] : List String).getD 0 "")) =
      some (accNum ((lookupGroup [] (jsTrim ((["A", "5"] : List String).getD 0 ""))).getD dfltNum)
        (parseFloat ((["A", "5"] : List String).getD 1 "0"))) :=
  ⟨(c1_plain_parsefloat_skip 1 0 [] ["A", "x"]).1 (by decide),
   (c1_plain_parsefloat_skip 1 0 [] ["A", "5"]).2.1 (by decide) (by decide)⟩



/-- C2 counterexample: the distinct non-empty x value "A" occurs in the
rows, but its only y cell does not parse, so the code emits no group at
all for it, while the claim demands the group ("A", 0) in the output. -/
theorem c2_counterexample :
    processChartData c2Data c2Chart .none 20 = []
    ∧ jsTrim ((c2Data.rows.getD 0 []).getD 0 "") = "A"
    ∧ ¬(("A", JsNum.fin 0) ∈ processChartData c2Data c2Chart .none 20) := by
  refine ⟨by decide, by decide, by decide⟩

lemma mem_map_group (groups : List (String × GroupStats)) (agg : AggregationType)
    (key : String) (v : JsNum)
    (hmem : (key, v) ∈ groups.map (fun g => (g.1, jsRound2 (aggValue agg g.2)))) :
    ∃ s, (key, s) ∈ groups ∧ v = jsRound2 (aggValue agg s) := by
  obtain ⟨g, hg, hge⟩ := List.mem_map.mp hmem
  obtain ⟨k1, s⟩ := g
  simp only [Prod.mk.injEq] at hge
  obtain ⟨hk, hv⟩ := hge
  subst hk
  exact ⟨s, hg, hv.symm⟩

lemma pipelineBase_agg (data : CSVData) (chart : ChartSuggestion) (lim : Nat) (xc : CSVColumn)
    (hx : resolveCol data chart.xAxis = some xc) (hagg : ¬(chart.aggregation = .none)) :
    pipelineBase data chart lim =
      aggResult data chart.aggregation xc.index
        ((resolveCol data chart.yAxis).map (fun c => c.index)) := by
  simp [pipelineBase, hx, hagg]

/-- C2 (amended): for min/max aggregation with a resolved y column, a
distinct non-empty trimmed x key yields an output group exactly when at
least one of its y cells parses (`parseFloat` not `NaN`); such a group
carries the rounded running extremum of the parsed values (started at
the infinite sentinel, which is reported as 0 in the degenerate case
where it survives); a key none of whose y cells parses is omitted from
the output entirely, not reported as 0. -/
theorem c2_minmax_groups (data : CSVData) (chart : ChartSuggestion) (xc yc : CSVColumn)
    (hx : resolveCol data chart.xAxis = some xc)
    (hy : resolveCol data chart.yAxis = some yc)
    (hagg : chart.aggregation = .min ∨ chart.aggregation = .max)
    (key : String) (hkey : ¬(key = "")) :
    (∀ lim, pipelineBase data chart lim =
        aggResult data chart.aggregation xc.index (some yc.index))
    ∧ (numericYs xc.index yc.index key data.rows = [] →
        ∀ v, ¬((key, v) ∈ aggResult data chart.aggregation xc.index (some yc.index)))
    ∧ (¬(numericYs xc.index yc.index key data.rows = []) → chart.aggregation = .min →
        (key, jsRound2
            (if (numericYs xc.index yc.index key data.rows).foldl jsMin JsNum.posInf =
                JsNum.posInf
             then JsNum.fin 0
             else (numericYs xc.index yc.index key data.rows).foldl jsMin JsNum.posInf))
          ∈ aggResult data chart.aggregation xc.index (some yc.index))
    ∧ (¬(numericYs xc.index yc.index key data.rows = []) → chart.aggregation = .max →
        (key, jsRound2
            (if (numericYs xc.index yc.index key data.rows).foldl jsMax JsNum.negInf =
                JsNum.negInf
             then JsNum.fin 0
             else (numericYs xc.index yc.index key data.rows).foldl jsMax JsNum.negInf))
          ∈ aggResult data chart.aggregation xc.index (some yc.index)) := by
  have hnagg : ¬(chart.aggregation = .none) := by
    rcases hagg with h | h <;> rw [h] <;> intro hc <;> cases hc
  have hcount : (decide (chart.aggregation = AggregationType.count)) = false := by
    rcases hagg with h | h <;> rw [h] <;> rfl
  have hagg_eq : aggResult data chart.aggregation xc.index (some yc.index) =
      (data.rows.foldl (aggStep false (some yc.index) xc.index) []).map
        (fun g => (g.1, jsRound2 (aggValue chart.aggregation g.2))) := by
    simp only [aggResult, hcount]
  have hfold := lookupGroup_foldl_aggStep yc.index xc.index key hkey data.rows []
  refine ⟨?_, ?_, ?_, ?_⟩
  · intro lim
    rw [pipelineBase_agg data chart lim xc hx hnagg, hy]
    rfl
  · intro hvs v
    rw [hagg_eq]
    intro hmem
    obtain ⟨s, hsmem, _⟩ := mem_map_group _ _ _ _ hmem
    have hnone : lookupGroup (data.rows.foldl (aggStep false (some yc.index) xc.index) []) key =
        Option.none := by
      rw [hfold, if_pos ⟨rfl, hvs⟩]
    exact lookupGroup_none_not_mem _ _ s hnone hsmem
  · intro hvs hmin
    rw [hagg_eq]
    have hsome : lookupGroup (data.rows.foldl (aggStep false (some yc.index) xc.index) []) key =
        some (statsFold dfltNum (numericYs xc.index yc.index key data.rows)) := by
      rw [hfold, if_neg (fun hc => hvs hc.2)]
      rfl
    have hmem : (key, jsRound2 (aggValue chart.aggregation
        (statsFold dfltNum (numericYs xc.index yc.index key data.rows)))) ∈
        (data.rows.foldl (aggStep false (some yc.index) xc.index) []).map
          (fun g => (g.1, jsRound2 (aggValue chart.aggregation g.2))) :=
      List.mem_map_of_mem _ (lookupGroup_some_mem _ _ _ hsome)
    have hval : aggValue chart.aggregation
        (statsFold dfltNum (numericYs xc.index yc.index key data.rows)) =
        (if (numericYs xc.index yc.index key data.rows).foldl jsMin JsNum.posInf = JsNum.posInf
         then JsNum.fin 0
         else (numericYs xc.index yc.index key data.rows).foldl jsMin JsNum.posInf) := by
      rw [hmin]
      simp only [aggValue, statsFold_min]
      rfl
    rw [hval] at hmem
    exact hmem
  · intro hvs hmax
    rw [hagg_eq]
    have hsome : lookupGroup (data.rows.foldl (aggStep false (some yc.index) xc.index) []) key =
        some (statsFold dfltNum (numericYs xc.index yc.index key data.rows)) := by
      rw [hfold, if_neg (fun hc => hvs hc.2)]
      rfl
    have hmem : (key, jsRound2 (aggValue chart.aggregation
        (statsFold dfltNum (numericYs xc.index yc.index key data.rows)))) ∈
        (data.rows.foldl (aggStep false (some yc.index) xc.index) []).map
          (fun g => (g.1, jsRound2 (aggValue chart.aggregation g.2))) :=
      List.mem_map_of_mem _ (lookupGroup_some_mem _ _ _ hsome)
    have hval : aggValue chart.aggregation
        (statsFold dfltNum (numericYs xc.index yc.index key data.rows)) =
        (if (numericYs xc.index yc.index key data.rows).foldl jsMax JsNum.negInf = JsNum.negInf
         then JsNum.fin 0
         else (numericYs xc.index yc.index key data.rows).foldl jsMax JsNum.negInf) := by
      rw [hmax]
      simp only [aggValue, statsFold_max]
      rfl
    rw [hval] at hmem
    exact hmem


theorem c2_amended_witness :
    (("A", JsNum.fin 3) ∈ aggResult c2ExData AggregationType.min 0 (some 1))
    ∧ ¬(("B", JsNum.fin 0) ∈ aggResult c2ExData AggregationType.min 0 (some 1)) :=
  ⟨(c2_minmax_groups c2ExData ⟨"x", "y", .min⟩ ⟨"x", .string, 0⟩ ⟨"y", .string, 1⟩
      (by decide) (by decide) (Or.inl rfl) "A" (by decide)).2.2.1 (by decide) rfl,
   (c2_minmax_groups c2ExData ⟨"x", "y", .min⟩ ⟨"x", .string, 0⟩ ⟨"y", .string, 1⟩
      (by decide) (by decide) (Or.inl rfl) "B" (by decide)).2.1 (by decide) (JsNum.fin 0)⟩



/-- C4 counterexample: the y cell "Infinity" parses under `parseFloat`
to the non-finite value `Infinity` and is NOT dropped, so raw mode does
not drop exactly the rows whose y is not a finite number. -/
theorem c4_counterexample :
    processChartData c4Data c4Chart .none 20 = [("A", JsNum.posInf)]
    ∧ parseFloat "Infinity" = JsNum.posInf
    ∧ jsIsFinite JsNum.posInf = false := by
  refine ⟨by decide, by decide, by decide⟩

lemma pipelineBase_raw (data : CSVData) (chart : ChartSuggestion) (lim : Nat)
    (xc yc : CSVColumn)
    (hx : resolveCol data chart.xAxis = some xc)
    (hy : resolveCol data chart.yAxis = some yc)
    (hagg : chart.aggregation = .none) :
    pipelineBase data chart lim = rawResult data xc.index yc.index lim := by
  simp [pipelineBase, hx, hy, hagg]

/-- C4 (amended): with aggregation `none` and a resolved y column, the
pipeline takes at most `2 x limit` rows in original dataset order, maps
each to the pair of its raw x value and the `parseFloat` of its y cell,
and drops exactly the rows whose y parses to `NaN` (rows parsing to an
infinity are kept); with sort order `none` the final result is that
sequence truncated to `limit`. -/
theorem c4_raw_mode (data : CSVData) (chart : ChartSuggestion) (lim : Nat)
    (xc yc : CSVColumn)
    (hx : resolveCol data chart.xAxis = some xc)
    (hy : resolveCol data chart.yAxis = some yc)
    (hagg : chart.aggregation = .none) :
    processChartData data chart .none lim = (rawResult data xc.index yc.index lim).take lim
    ∧ List.Sublist (rawResult data xc.index yc.index lim)
        ((data.rows.take (min (lim * 2) data.rows.length)).map (rawPoint xc.index yc.index))
    ∧ (∀ row ∈ data.rows.take (min (lim * 2) data.rows.length),
        (rawPoint xc.index yc.index row ∈ rawResult data xc.index yc.index lim ↔
          ¬(parseFloat (row.getD yc.index "0") = JsNum.nan))) := by
  refine ⟨?_, ?_, ?_⟩
  · simp [processChartData, pipelineBase_raw data chart lim xc yc hx hy hagg]
  · exact List.filter_sublist _
  · intro row hrow
    constructor
    · intro hmem
      have hp := List.of_mem_filter hmem
      simpa [rawPoint] using hp
    · intro hnn
      apply List.mem_filter.mpr
      refine ⟨List.mem_map_of_mem _ hrow, ?_⟩
      simpa [rawPoint] using hnn



theorem c4_raw_mode_witness :
    processChartData c4ExData c4ExChart .none 20 = (rawResult c4ExData 0 1 20).take 20
    ∧ processChartData c4ExData c4ExChart .none 20 = [("A", JsNum.fin 10)] :=
  ⟨(c4_raw_mode c4ExData c4ExChart 20 ⟨"x", .string, 0⟩ ⟨"y", .number, 1⟩
      (by decide) (by decide) rfl).1,
   by decide⟩

/-- C6: the pipeline returns at most `limit` entries for every input;
when the requested order is `asc` or `desc`, the result is the sorted
base sequence truncated after sorting; the sort is a permutation, its
comparator reads only the y component (the x value never influences a
comparison), pairs with equal y keep their relative order (stability),
and when no produced y is `NaN` the sorted sequence is ordered by y
according to the requested direction. -/
theorem c6_sort_limit :
    (∀ (data : CSVData) (chart : ChartSuggestion) (ord : SortOrder) (lim : Nat),
        (processChartData data chart ord lim).length ≤ lim)
    ∧ (∀ (data : CSVData) (chart : ChartSuggestion) (ord : SortOrder) (lim : Nat),
        ¬(ord = SortOrder.none) →
        processChartData data chart ord lim =
          (sortPairs ord (pipelineBase data chart lim)).take lim)
    ∧ (∀ (ord : SortOrder) (l : List (String × JsNum)), List.Perm (sortPairs ord l) l)
    ∧ (∀ (ord : SortOrder) (a b : String × JsNum),
        sortLe ord a b = sortLe ord ("", a.2) ("", b.2))
    ∧ (∀ (ord : SortOrder) (l : List (String × JsNum)), (∀ p ∈ l, ¬(p.2 = JsNum.nan)) →
        List.Pairwise (fun a b => keyLeOf ord a b = true) (sortPairs ord l))
    ∧ (∀ (ord : SortOrder) (l : List (String × JsNum)) (a b : String × JsNum),
        a.2 = b.2 → List.Sublist [a, b] l → List.Sublist [a, b] (sortPairs ord l)) := by
  refine ⟨?_, ?_, sortPairs_perm, fun ord a b => rfl, sortPairs_sorted,
    fun ord l a b h1 h2 => sortPairs_stable ord l a b h1 h2⟩
  · intro data chart ord lim
    simp only [processChartData]
    exact List.length_take_le lim _
  · intro data chart ord lim hord
    simp [processChartData, hord]



theorem c6_witness :
    (processChartData c6Data c6Chart .desc 1).length ≤ 1
    ∧ processChartData c6Data c6Chart .desc 1 =
        (sortPairs .desc (pipelineBase c6Data c6Chart 1)).take 1
    ∧ List.Pairwise (fun a b => keyLeOf .desc a b = true)
        (sortPairs .desc [("A", JsNum.fin 13), ("B", JsNum.fin 5)])
    ∧ processChartData c6Data c6Chart .desc 1 = [("A", JsNum.fin 13)] :=
  ⟨c6_sort_limit.1 c6Data c6Chart .desc 1,
   c6_sort_limit.2.1 c6Data c6Chart .desc 1 (by decide),
   c6_sort_limit.2.2.2.2.1 .desc [("A", JsNum.fin 13), ("B", JsNum.fin 5)] (by decide),
   by decide⟩
